import Mathlib

/-!
Verification of the neko-coin blockchain node against its
natural-language specification.

The development shallowly embeds the JavaScript sources:

* `src/transaction.js` / `src/block.js`  → `Neko.Transaction`, `Neko.Block`
* `src/blockchain.js`                    → `Neko.Blockchain` and its operations
* `src/vm.js`                            → `Neko.VMState`, `Neko.executeOpcode`,
                                           `Neko.runLoop`, `Neko.VM.execute`
* `src/contract.js`                      → `Neko.Contract`, `Neko.Contract.execute`
* `src/p2p-ws.js`                        → `Neko.handleChain`, `Neko.handleHandshake`

External cryptographic primitives (SHA-256 from `crypto-js`, ECDSA from
`elliptic`) are not part of the repository; they enter the model as
abstract function parameters (`CalcHash` for block hashing, `Verify` for
signature verification), so every theorem quantifies over them.
JavaScript numbers/BigInts are modelled as `Int`; machine-level overflow
does not occur in the source (BigInt is arbitrary precision).
-/

namespace Neko

/-- Transaction record (`src/transaction.js`): sender public key
(`none` encodes JavaScript `null`, used for mining rewards), receiver,
amount, creation timestamp and optional DER signature. -/
structure Transaction where
  senderAddress : Option String
  receiverAddress : String
  amount : Int
  timestamp : Int
  signature : Option String
deriving DecidableEq, Repr

/-- Abstract signature verifier, standing for
`verifySignature(senderAddress, calculateHash(tx), signature)` from
`src/wallet.js` (the `elliptic` library, external to the repository).
It receives the sender key, the transaction (determining the hashed
fingerprint `sender‖receiver‖amount‖timestamp`) and the signature. -/
abbrev Verify := String → Transaction → String → Bool

/-- `Transaction.isValid` (`src/transaction.js` lines 272-303): mining
rewards (no sender) are unconditionally valid; otherwise the signature
must be present and non-empty, the amount positive, and the signature
must verify against the transaction hash. -/
def Transaction.isValid (verify : Verify) (tx : Transaction) : Bool :=
  match tx.senderAddress with
  | none => true
  | some sender =>
    match tx.signature with
    | none => false
    | some sig =>
      if sig = "" then false
      else if tx.amount ≤ 0 then false
      else verify sender tx sig

/-- Block record (`src/block.js`): index, timestamp, ordered
transactions, previous hash, proof-of-work nonce and stored hash. -/
structure Block where
  index : Int
  timestamp : Int
  transactions : List Transaction
  previousHash : String
  nonce : Int
  hash : String
deriving DecidableEq, Repr

/-- Abstract block hash, standing for
`SHA256(index + timestamp + JSON.stringify(transactions) + previousHash + nonce)`
(`src/block.js` lines 68-76; SHA-256 comes from `crypto-js`, external to
the repository). Its arguments are exactly the five fields the source
hashes — in particular the stored `hash` field is *not* an input. -/
abbrev CalcHash := Int → Int → List Transaction → String → Int → String

/-- Recompute a block's hash: `Block.calculateHash` applies the abstract
hash to the five hashed header fields. -/
def Block.calculateHash (f : CalcHash) (b : Block) : String :=
  f b.index b.timestamp b.transactions b.previousHash b.nonce

/-- Proof-of-work target check
(`hash.substring(0, difficulty) === '0'.repeat(difficulty)`). -/
def meetsDifficulty (d : Nat) (h : String) : Bool :=
  h.toList.take d == List.replicate d '0'

/-- Mutable state of a `Blockchain` instance (`src/blockchain.js`):
the chain, the pending-transaction pool and the difficulty (4 in the
source constructor). -/
structure Blockchain where
  chain : List Block
  pendingTransactions : List Transaction
  difficulty : Nat
deriving DecidableEq, Repr

/-- `getLatestBlock` (`src/blockchain.js` line 148):
`this.chain[this.chain.length - 1]`, `none` when the chain is empty. -/
def Blockchain.getLatestBlock? (bc : Blockchain) : Option Block :=
  bc.chain.getLast?

/-- `getBalance` (`src/blockchain.js` lines 279-299): scan every
transaction of every block, adding amounts received and subtracting
amounts sent. Only the chain is consulted, never the pending pool. -/
def Blockchain.getBalance (bc : Blockchain) (address : String) : Int :=
  bc.chain.foldl
    (fun acc b =>
      b.transactions.foldl
        (fun acc tx =>
          let acc := if tx.receiverAddress = address then acc + tx.amount else acc
          if tx.senderAddress = some address then acc - tx.amount else acc)
        acc)
    0

/-- Errors thrown by `addTransaction` (`src/blockchain.js` lines 159-192). -/
inductive AddTxError where
  /-- `'Transaction must have a sender address'` (sender falsy but not `null`). -/
  | missingSender
  /-- `'Transaction must have a receiver address'`. -/
  | missingReceiver
  /-- `'Cannot add invalid transaction to the chain'`. -/
  | invalidTransaction
  /-- `'Insufficient balance! ...'`. -/
  | insufficientBalance
deriving DecidableEq, Repr

/-- `addTransaction` (`src/blockchain.js` lines 159-192), in
state-passing style: the returned `Blockchain` is the instance state
after the call (unchanged on every `throw` path, since the `throw`s all
precede the `push`). The first source check
`!transaction.senderAddress && transaction.senderAddress !== null`
fires exactly for an empty-string sender. -/
def Blockchain.addTransaction (verify : Verify) (bc : Blockchain)
    (tx : Transaction) : Except AddTxError Unit × Blockchain :=
  if tx.senderAddress = some "" then (.error .missingSender, bc)
  else if tx.receiverAddress = "" then (.error .missingReceiver, bc)
  else if ¬ tx.isValid verify then (.error .invalidTransaction, bc)
  else
    match tx.senderAddress with
    | some s =>
      if bc.getBalance s < tx.amount then (.error .insufficientBalance, bc)
      else (.ok (), { bc with pendingTransactions := bc.pendingTransactions ++ [tx] })
    | none => (.ok (), { bc with pendingTransactions := bc.pendingTransactions ++ [tx] })

/-- Body of the `validateChain` loop (`src/blockchain.js` lines 539-557),
structurally recursive over the blocks after the head: re-hash check,
link check and proof-of-work check for each block from index 1 on. -/
def validateChainLoop (f : CalcHash) (d : Nat) : Block → List Block → Bool
  | _, [] => true
  | prev, b :: rest =>
    if b.hash ≠ b.calculateHash f then false
    else if b.previousHash ≠ prev.hash then false
    else if ¬ meetsDifficulty d b.hash then false
    else validateChainLoop f d b rest

/-- `validateChain` (`src/blockchain.js` lines 534-560): an empty chain
is invalid; otherwise every block from index 1 on must pass the hash,
link and proof-of-work checks. The genesis block itself is never
re-checked and no transaction signature is ever verified. -/
def Blockchain.validateChain (f : CalcHash) (bc : Blockchain)
    (chain : List Block) : Bool :=
  match chain with
  | [] => false
  | b0 :: rest => validateChainLoop f bc.difficulty b0 rest

/-- `replaceChain` (`src/blockchain.js` lines 492-525): validate the
candidate with `validateChain` and, if valid, replace the chain. The
boolean is the source's return value. There is no length comparison
here. Reconstructing `Block`/`Transaction` objects from the wire data is
the identity in this model (all fields are carried over). -/
def Blockchain.replaceChain (f : CalcHash) (bc : Blockchain)
    (newChain : List Block) : Bool × Blockchain :=
  if bc.validateChain f newChain then (true, { bc with chain := newChain })
  else (false, bc)

/-- Transaction fingerprint comparison used for pending-pool dedup and
removal: sender, receiver, amount and timestamp all equal. -/
def fingerprintEq (a b : Transaction) : Bool :=
  a.senderAddress == b.senderAddress && a.receiverAddress == b.receiverAddress
    && a.amount == b.amount && a.timestamp == b.timestamp

/-- `removeMinedTransactions` (`src/blockchain.js` lines 668-677): keep
the pending transactions whose fingerprint matches no mined one. -/
def removeMinedTransactions (pending mined : List Transaction) :
    List Transaction :=
  pending.filter fun p => ¬ mined.any fun m => fingerprintEq m p

/-- `addBlock` (`src/blockchain.js` lines 569-622): check the link to
the latest block, the index, the recomputed hash, and the proof-of-work
target; on success append the block and drop mined transactions from
pending. Returns `none` when the chain is empty (the source would crash
dereferencing `getLatestBlock().hash`). -/
def Blockchain.addBlock (f : CalcHash) (bc : Blockchain) (b : Block) :
    Option (Bool × Blockchain) :=
  match bc.getLatestBlock? with
  | none => none
  | some latest =>
    if b.previousHash ≠ latest.hash then some (false, bc)
    else if b.index ≠ latest.index + 1 then some (false, bc)
    else if b.hash ≠ b.calculateHash f then some (false, bc)
    else if ¬ meetsDifficulty bc.difficulty b.hash then some (false, bc)
    else some (true,
      { bc with
        chain := bc.chain ++ [b]
        pendingTransactions :=
          removeMinedTransactions bc.pendingTransactions b.transactions })

/-- `WebSocketP2P.handleChain` (`src/p2p-ws.js` lines 283-294), effect
on the blockchain state: only when the received chain is strictly longer
than ours is `replaceChain` invoked. -/
def handleChain (f : CalcHash) (bc : Blockchain) (chainData : List Block) :
    Blockchain :=
  if chainData.length > bc.chain.length then (bc.replaceChain f chainData).2
  else bc

/-! ## Virtual machine (`src/vm.js`) -/

/-- Association-list lookup (the model of `Map.get`). -/
def lookupA {K V : Type} [DecidableEq K] : List (K × V) → K → Option V
  | [], _ => none
  | (k, v) :: rest, key => if k = key then some v else lookupA rest key

/-- Association-list update (the model of `Map.set`): replace the first
binding of the key, else append, preserving insertion order. -/
def setA {K V : Type} [DecidableEq K] : List (K × V) → K → V → List (K × V)
  | [], key, v => [(key, v)]
  | (k, w) :: rest, key, v =>
    if k = key then (key, v) :: rest else (k, w) :: setA rest key v

/-- Byte read `bytecode[i] || 0`: out-of-range (or negative) indices give
`undefined` which `|| 0` turns into 0 (as does an actual 0 byte). -/
def byteAtD (bc : List Nat) (i : Int) : Nat :=
  if i < 0 then 0 else bc.getD i.toNat 0

/-- Byte read `bytecode[i]` as an option (to model `=== OPCODES.PUSH32`
comparisons against possibly-`undefined` reads). -/
def byteAt? (bc : List Nat) (i : Int) : Option Nat :=
  if i < 0 then none else bc.get? i.toNat

/-- Mutable VM state (`src/vm.js` constructor, lines 132-147). The stack
head is the top; `pc` is an `Int` because `JUMP 0` sets `pc = -1` before
the loop increments it back to 0. Memory keys are the JavaScript
numbers, storage keys the `BigInt.toString()` strings of the source. -/
structure VMState where
  stack : List Int
  memory : List (Int × Int)
  storage : List (String × Int)
  pc : Int
  gasUsed : Nat
  gasLimit : Nat
  caller : String
  value : Int
  callData : List Nat
  returnData : List Nat
  logs : List (String × Int)
  stopped : Bool
  reverted : Bool
deriving DecidableEq, Repr

/-- The `GAS_COSTS` table (`src/vm.js` lines 86-119); `none` for opcodes
without an entry. -/
def gasCostRaw (op : Nat) : Option Nat :=
  if op = 0x00 then some 0        -- STOP
  else if op = 0x01 then some 3   -- PUSH1
  else if op = 0x02 then some 3   -- PUSH32
  else if op = 0x03 then some 2   -- POP
  else if op = 0x04 then some 3   -- DUP
  else if op = 0x05 then some 3   -- SWAP
  else if op = 0x10 then some 3   -- ADD
  else if op = 0x11 then some 3   -- SUB
  else if op = 0x12 then some 5   -- MUL
  else if op = 0x13 then some 5   -- DIV
  else if op = 0x14 then some 5   -- MOD
  else if op = 0x20 then some 3   -- LT
  else if op = 0x21 then some 3   -- GT
  else if op = 0x22 then some 3   -- EQ
  else if op = 0x23 then some 3   -- ISZERO
  else if op = 0x30 then some 3   -- AND
  else if op = 0x31 then some 3   -- OR
  else if op = 0x32 then some 3   -- NOT
  else if op = 0x40 then some 8   -- JUMP
  else if op = 0x41 then some 10  -- JUMPI
  else if op = 0x42 then some 1   -- JUMPDEST
  else if op = 0x50 then some 2   -- CALLER
  else if op = 0x51 then some 2   -- CALLVALUE
  else if op = 0x52 then some 3   -- CALLDATALOAD
  else if op = 0x53 then some 2   -- CALLDATASIZE
  else if op = 0x60 then some 200 -- SLOAD
  else if op = 0x61 then some 5000 -- SSTORE
  else if op = 0x70 then some 3   -- MLOAD
  else if op = 0x71 then some 3   -- MSTORE
  else if op = 0x80 then some 0   -- RETURN
  else if op = 0x81 then some 0   -- REVERT
  else if op = 0x90 then some 375 -- LOG
  else none

/-- The charged cost `GAS_COSTS[opcode] || 3` (`src/vm.js` line 164):
a missing entry defaults to 3 — and so does an entry of 0, because 0 is
falsy in JavaScript (so `STOP`, `RETURN` and `REVERT` are charged 3). -/
def effCost (op : Nat) : Nat :=
  match gasCostRaw op with
  | some 0 => 3
  | some c => c
  | none => 3

/-- Step `i` past PUSH immediates in `findJumpDests` (`src/vm.js` lines
190-199). The source's two consecutive `if`s share the loop variable, so
after `i += 1` for a `PUSH1` the `PUSH32` test re-reads the *new* `i`. -/
def fjdSkip1 (bc : List Nat) (i : Nat) : Nat :=
  if bc.getD i 0 = 0x01 then i + 1 else i

/-- Second skip of `findJumpDests`: the `PUSH32` test re-reads the index
already advanced by the `PUSH1` test. -/
def fjdNext (bc : List Nat) (i : Nat) : Nat :=
  if bc.get? (fjdSkip1 bc i) = some 0x02 then fjdSkip1 bc i + 32 else fjdSkip1 bc i

theorem fjdNext_ge (bc : List Nat) (i : Nat) : i ≤ fjdNext bc i := by
  unfold fjdNext fjdSkip1
  split <;> split <;> omega

/-- Loop of `findJumpDests`: record every `JUMPDEST` (0x42) position,
skipping PUSH immediates via `fjdNext`. Structurally recursive on a fuel
that starts at `bc.length`: since `i` strictly increases each iteration
(`fjdNext_ge`), the loop condition `i < bc.length` fails after at most
`bc.length` iterations, so this fuel is exactly adequate. -/
def fjdLoop (bc : List Nat) : Nat → Nat → List Nat → List Nat
  | 0, _, acc => acc
  | fuel + 1, i, acc =>
    if i < bc.length then
      fjdLoop bc fuel (fjdNext bc i + 1)
        (if bc.getD i 0 = 0x42 then acc ++ [i] else acc)
    else acc

/-- `findJumpDests` (`src/vm.js` lines 190-199). -/
def findJumpDests (bc : List Nat) : List Nat := fjdLoop bc bc.length 0 []

/-- The partial-state outcome of one opcode: the state after the
mutations performed up to the point of a `throw`, plus the thrown
message if any (`executeOpcode` mutates `this` directly, so a midway
`throw` leaves earlier pops applied). -/
abbrev StepResult := VMState × Option String

/-- `binaryOp` (`src/vm.js` lines 401-405): pop `b`, pop `a`, push
`operation(a, b)`; a failing second pop leaves the first pop applied. -/
def binaryOp (st : VMState) (f : Int → Int → Int) : StepResult :=
  match st.stack with
  | [] => (st, some "Stack underflow")
  | b :: rest =>
    match rest with
    | [] => ({ st with stack := [] }, some "Stack underflow")
    | a :: rest2 => ({ st with stack := f a b :: rest2 }, none)

/-- Accumulate a 32-byte big-endian word, pre-incrementing `pc` before
each byte read, exactly as the `PUSH32` loop does
(`value = (value << 8n) | BigInt(bytecode[this.pc] || 0)`). -/
def readWordAdvancing (bc : List Nat) : Nat → Int → Nat → Int × Nat
  | 0, pc, v => (pc, v)
  | n + 1, pc, v => readWordAdvancing bc n (pc + 1) ((v <<< 8) ||| byteAtD bc (pc + 1))

/-- Accumulate the 32-byte big-endian `CALLDATALOAD` window at a fixed
offset (`src/vm.js` lines 329-336), reading `callData[offset + i] || 0`. -/
def readCallData (data : List Nat) (offset : Int) : Nat → Nat → Nat
  | 0, v => v
  | n + 1, v =>
    readCallData data offset n ((v <<< 8) ||| byteAtD data (offset + (31 - n)))

/-- Hexadecimal digit value, accepting both cases (JavaScript
`BigInt('0x…')`). -/
def hexDigit? (c : Char) : Option Nat :=
  if '0' ≤ c ∧ c ≤ '9' then some (c.toNat - '0'.toNat)
  else if 'a' ≤ c ∧ c ≤ 'f' then some (c.toNat - 'a'.toNat + 10)
  else if 'A' ≤ c ∧ c ≤ 'F' then some (c.toNat - 'A'.toNat + 10)
  else none

/-- Parse the hex digits after the `0x` prefix; `none` when empty or
containing a non-hex character (where `BigInt(...)` would throw). -/
def parseHexDigits : List Char → Nat → Option Nat
  | [], _ => none
  | [c], acc => (hexDigit? c).map fun d => acc * 16 + d
  | c :: rest, acc =>
    match hexDigit? c with
    | none => none
    | some d => parseHexDigits rest (acc * 16 + d)

/-- The `CALLER` conversion `BigInt('0x' + this.caller.slice(0, 16))`
(`src/vm.js` line 321): first 16 characters of the caller string parsed
as hex; `none` models the `SyntaxError` thrown on a malformed literal
(the `|| '0'` in the source is dead code, since the concatenation is
always truthy). -/
def callerNum? (caller : String) : Option Nat :=
  parseHexDigits (caller.toList.take 16) 0

/-- One opcode dispatch, `executeOpcode` (`src/vm.js` lines 204-396).
Arithmetic is exact `Int` arithmetic (JavaScript `BigInt`): no reduction
modulo 2^256 anywhere; `~a` is `-(a+1)`; `DIV`/`MOD` truncate toward
zero like BigInt. Thrown errors are returned as messages together with
the partially mutated state. -/
def executeOpcode (jd : List Nat) (bc : List Nat) (op : Nat)
    (st : VMState) : StepResult :=
  if op = 0x00 then ({ st with stopped := true }, none)
  else if op = 0x01 then
    let pc := st.pc + 1
    ({ st with pc := pc, stack := Int.ofNat (byteAtD bc pc) :: st.stack }, none)
  else if op = 0x02 then
    let r := readWordAdvancing bc 32 st.pc 0
    ({ st with pc := r.1, stack := Int.ofNat r.2 :: st.stack }, none)
  else if op = 0x03 then
    match st.stack with
    | [] => (st, some "Stack underflow")
    | _ :: rest => ({ st with stack := rest }, none)
  else if op = 0x04 then
    match st.stack with
    | [] => (st, some "Stack underflow")
    | top :: rest => ({ st with stack := top :: top :: rest }, none)
  else if op = 0x05 then
    match st.stack with
    | a :: b :: rest => ({ st with stack := b :: a :: rest }, none)
    | _ => (st, some "Stack underflow")
  else if op = 0x10 then binaryOp st fun a b => a + b
  else if op = 0x11 then binaryOp st fun a b => a - b
  else if op = 0x12 then binaryOp st fun a b => a * b
  else if op = 0x13 then binaryOp st fun a b => if b = 0 then 0 else Int.tdiv a b
  else if op = 0x14 then binaryOp st fun a b => if b = 0 then 0 else Int.tmod a b
  else if op = 0x20 then binaryOp st fun a b => if a < b then 1 else 0
  else if op = 0x21 then binaryOp st fun a b => if a > b then 1 else 0
  else if op = 0x22 then binaryOp st fun a b => if a = b then 1 else 0
  else if op = 0x23 then
    match st.stack with
    | [] => (st, some "Stack underflow")
    | v :: rest => ({ st with stack := (if v = 0 then 1 else 0) :: rest }, none)
  else if op = 0x30 then binaryOp st fun a b => Int.land a b
  else if op = 0x31 then binaryOp st fun a b => Int.lor a b
  else if op = 0x32 then
    match st.stack with
    | [] => (st, some "Stack underflow")
    | v :: rest => ({ st with stack := (-(v + 1)) :: rest }, none)
  else if op = 0x40 then
    match st.stack with
    | [] => (st, some "Stack underflow")
    | dest :: rest =>
      if jd.any fun n => (n : Int) == dest then
        ({ st with stack := rest, pc := dest - 1 }, none)
      else ({ st with stack := rest }, some "Invalid jump destination")
  else if op = 0x41 then
    match st.stack with
    | [] => (st, some "Stack underflow")
    | dest :: rest =>
      match rest with
      | [] => ({ st with stack := [] }, some "Stack underflow")
      | cond :: rest2 =>
        if cond ≠ 0 then
          if jd.any fun n => (n : Int) == dest then
            ({ st with stack := rest2, pc := dest - 1 }, none)
          else ({ st with stack := rest2 }, some "Invalid jump destination")
        else ({ st with stack := rest2 }, none)
  else if op = 0x42 then (st, none)
  else if op = 0x50 then
    match callerNum? st.caller with
    | some n => ({ st with stack := Int.ofNat n :: st.stack }, none)
    | none => (st, some "Cannot convert to a BigInt")
  else if op = 0x51 then ({ st with stack := st.value :: st.stack }, none)
  else if op = 0x52 then
    match st.stack with
    | [] => (st, some "Stack underflow")
    | offset :: rest =>
      ({ st with stack := Int.ofNat (readCallData st.callData offset 32 0) :: rest },
        none)
  else if op = 0x53 then
    ({ st with stack := Int.ofNat st.callData.length :: st.stack }, none)
  else if op = 0x60 then
    match st.stack with
    | [] => (st, some "Stack underflow")
    | key :: rest =>
      ({ st with stack := ((lookupA st.storage (toString key)).getD 0) :: rest },
        none)
  else if op = 0x61 then
    match st.stack with
    | [] => (st, some "Stack underflow")
    | key :: rest =>
      match rest with
      | [] => ({ st with stack := [] }, some "Stack underflow")
      | v :: rest2 =>
        ({ st with stack := rest2, storage := setA st.storage (toString key) v },
          none)
  else if op = 0x70 then
    match st.stack with
    | [] => (st, some "Stack underflow")
    | addr :: rest =>
      ({ st with stack := ((lookupA st.memory addr).getD 0) :: rest }, none)
  else if op = 0x71 then
    match st.stack with
    | [] => (st, some "Stack underflow")
    | addr :: rest =>
      match rest with
      | [] => ({ st with stack := [] }, some "Stack underflow")
      | v :: rest2 =>
        ({ st with stack := rest2, memory := setA st.memory addr v }, none)
  else if op = 0x80 then
    match st.stack with
    | [] => (st, some "Stack underflow")
    | off :: rest =>
      match rest with
      | [] => ({ st with stack := [] }, some "Stack underflow")
      | size :: rest2 =>
        ({ st with
            stack := rest2
            returnData := (List.range size.toNat).map fun i =>
              (Int.emod ((lookupA st.memory (off + i)).getD 0) 256).toNat
            stopped := true }, none)
  else if op = 0x81 then ({ st with reverted := true, stopped := true }, none)
  else if op = 0x90 then
    match st.stack with
    | [] => (st, some "Stack underflow")
    | d :: rest =>
      ({ st with stack := rest, logs := st.logs ++ [(toString d, st.pc)] }, none)
  else (st, some ("Unknown opcode: 0x" ++ String.mk (Nat.toDigits 16 op)))

/-- Result object of `getResult` (`src/vm.js` lines 430-440). The
source additionally stringifies the stack for display; values are kept
as `Int` here (decimal stringification is injective). -/
structure VMResult where
  success : Bool
  gasUsed : Nat
  returnData : List Nat
  storage : List (String × Int)
  logs : List (String × Int)
  stack : List Int
  error : Option String
deriving DecidableEq, Repr

/-- `getResult` (`src/vm.js` lines 430-440):
`success: !this.reverted && !error`. -/
def getResult (st : VMState) (err : Option String) : VMResult :=
  { success := !st.reverted && err.isNone
    gasUsed := st.gasUsed
    returnData := st.returnData
    storage := st.storage
    logs := st.logs
    stack := st.stack
    error := err }

/-- The `execute` loop (`src/vm.js` lines 160-182), fuel-indexed for
totality: while `pc < bytecode.length && !stopped`, charge gas (halting
with `'Out of gas'` if `gasUsed + cost > gasLimit`), dispatch the
opcode (halting with its message on a throw), then increment `pc`.
Every iteration that does not halt charges at least 1 gas (the minimum
`effCost` is 1), so `gasLimit + 2` fuel can never run out first. -/
def runLoop (jd : List Nat) (bc : List Nat) :
    Nat → VMState → VMState × Option String
  | 0, st => (st, some "out of fuel")
  | fuel + 1, st =>
    if st.pc < (bc.length : Int) ∧ st.stopped = false then
      let op := byteAtD bc st.pc
      let cost := effCost op
      if st.gasUsed + cost > st.gasLimit then
        ({ st with reverted := true, stopped := true }, some "Out of gas")
      else
        let st1 := { st with gasUsed := st.gasUsed + cost }
        match executeOpcode jd bc op st1 with
        | (st2, some msg) => ({ st2 with reverted := true, stopped := true }, some msg)
        | (st2, none) => runLoop jd bc fuel { st2 with pc := st2.pc + 1 }
    else (st, none)

/-- Fresh VM state from an execution context (`src/vm.js` constructor),
with the defaults of the source (`gasLimit: 1000000`, `caller: '0x0'`,
`value: 0`). -/
def initVM (caller : String) (value : Int) (callData : List Nat)
    (gasLimit : Nat) (storage : List (String × Int)) : VMState :=
  { stack := [], memory := [], storage := storage, pc := 0, gasUsed := 0
    gasLimit := gasLimit, caller := caller, value := value
    callData := callData, returnData := [], logs := []
    stopped := false, reverted := false }

/-- `VM.execute` (`src/vm.js` lines 155-185): find the jump
destinations, run the loop, package the result. -/
def VM.execute (caller : String) (value : Int) (callData : List Nat)
    (gasLimit : Nat) (storage : List (String × Int)) (bc : List Nat) :
    VMResult :=
  let jd := findJumpDests bc
  let r := runLoop jd bc (gasLimit + 2) (initVM caller value callData gasLimit storage)
  getResult r.1 r.2

/-! ## Contracts (`src/contract.js`) -/

/-- Contract record (`src/contract.js` lines 41-48). -/
structure Contract where
  address : String
  bytecode : List Nat
  creator : String
  storage : List (String × Int)
  balance : Int
deriving DecidableEq, Repr

/-- `Contract.execute` (`src/contract.js` lines 60-82). The source
passes `this.storage` — the very `Map` object — into the VM, whose
`SSTORE` mutates it in place; the guarded assignment
`if (result.success) this.storage = result.storage` re-assigns that same
object, so after the call the contract's storage equals the VM's final
storage *whether or not* the execution succeeded. The balance is
credited only on success with a positive value. -/
def Contract.execute (c : Contract) (caller : String) (value : Int)
    (data : List Nat) (gasLimit : Nat) : VMResult × Contract :=
  let result := VM.execute caller value data gasLimit c.storage c.bytecode
  let c1 := { c with storage := result.storage }
  let c2 := if result.success ∧ value > 0 then { c1 with balance := c1.balance + value }
    else c1
  (result, c2)

/-! ## WebSocket gossip handshake (`src/p2p-ws.js`) -/

/-- A P2P gossip action visible from `handleHandshake`: closing the
socket or sending a message type on it. Connections are identified by
an abstract numeric id. -/
inductive P2PAction where
  | close (conn : Nat)
  | send (conn : Nat) (msgType : String)
deriving DecidableEq, Repr

/-- The `WebSocketP2P` state that `handleHandshake` touches: the peer
table (`Map` keyed by node URL, insertion-ordered), the known-peer set,
our own URL and our chain length. -/
structure P2PState where
  peers : List (String × Nat)
  knownPeers : List String
  nodeUrl : String
  chainLength : Nat
deriving DecidableEq, Repr

/-- `Set.add` on the known-peers list. -/
def addKnown (l : List String) (url : String) : List String :=
  if url ∈ l then l else l ++ [url]

/-- `handleHandshake` (`src/p2p-ws.js` lines 208-233): close and return
if the peer URL is our own; store the connection only if no entry exists
for that URL; request the chain iff the peer's chain is strictly longer;
always request peers. Messages are emitted in source order. -/
def handleHandshake (st : P2PState) (ws : Nat) (peerUrl : String)
    (peerChainLength : Nat) : P2PState × List P2PAction :=
  if peerUrl = st.nodeUrl then (st, [.close ws])
  else
    let st1 :=
      if (lookupA st.peers peerUrl).isSome then st
      else { st with peers := st.peers ++ [(peerUrl, ws)],
                     knownPeers := addKnown st.knownPeers peerUrl }
    let acts :=
      (if peerChainLength > st1.chainLength then [P2PAction.send ws "GET_CHAIN"]
        else []) ++ [P2PAction.send ws "GET_PEERS"]
    (st1, acts)

/-! ## Claim theorems -/

/-- C10: for every transaction whose sender is absent (`null`),
`isValid()` returns `true` unconditionally — no signature check and no
amount-positivity check is applied, whatever the verifier says. -/
theorem isValid_reward_unconditional (verify : Verify) (tx : Transaction)
    (h : tx.senderAddress = none) : tx.isValid verify = true := by
  unfold Transaction.isValid
  rw [h]

/-- Witness for C10: a sender-absent transaction with amount 0, and one
with a negative amount, both unsigned, are reported valid even under a
verifier that rejects everything. -/
theorem isValid_reward_unconditional_witness :
    Transaction.isValid (fun _ _ _ => false) ⟨none, "r", 0, 0, none⟩ = true
  ∧ Transaction.isValid (fun _ _ _ => false) ⟨none, "r", -5, 0, none⟩ = true :=
  ⟨isValid_reward_unconditional _ _ rfl, isValid_reward_unconditional _ _ rfl⟩

/-- C2 (amended): VM values are exact arbitrary-precision integers, not
256-bit words. `ADD`/`SUB`/`MUL` on operands `a` (second) and `b` (top)
push the exact `Int` results with no reduction modulo 2^256 (`SUB` goes
negative on underflow), and `NOT` pushes `-(a+1)` (unbounded two's
complement), not `2^256 - 1 - a`. -/
theorem vm_arith_exact_int (jd bc : List Nat) (st : VMState) (a b : Int)
    (rest : List Int) :
    executeOpcode jd bc 0x10 { st with stack := b :: a :: rest }
      = ({ st with stack := (a + b) :: rest }, none)
  ∧ executeOpcode jd bc 0x11 { st with stack := b :: a :: rest }
      = ({ st with stack := (a - b) :: rest }, none)
  ∧ executeOpcode jd bc 0x12 { st with stack := b :: a :: rest }
      = ({ st with stack := (a * b) :: rest }, none)
  ∧ executeOpcode jd bc 0x32 { st with stack := a :: rest }
      = ({ st with stack := (-(a + 1)) :: rest }, none) :=
  ⟨rfl, rfl, rfl, rfl⟩

set_option maxRecDepth 8192 in
/-- Counterexample for C2 as stated: the program `PUSH1 0; PUSH1 1; SUB`
leaves `-1` on the stack, whereas wrapping semantics would require
`(0 - 1) mod 2^256 = 2^256 - 1`; likewise `PUSH1 0; NOT` leaves `-1`,
not the 256-bit complement `2^256 - 1 - 0`. -/
theorem vm_sub_not_do_not_wrap :
    (VM.execute "0x0" 0 [] 1000000 [] [1, 0, 1, 1, 0x11]).stack = [-1]
  ∧ ((0 : Int) - 1) % 2 ^ 256 = 2 ^ 256 - 1
  ∧ (VM.execute "0x0" 0 [] 1000000 [] [1, 0, 1, 1, 0x11]).stack ≠ [2 ^ 256 - 1]
  ∧ (VM.execute "0x0" 0 [] 1000000 [] [1, 0, 0x32]).stack = [-1]
  ∧ (VM.execute "0x0" 0 [] 1000000 [] [1, 0, 0x32]).stack ≠ [2 ^ 256 - 1 - 0] := by
  refine ⟨by decide, by decide, ?_, by decide, ?_⟩ <;> decide

/-- C4: executing `PUSH1 5; PUSH1 0; SSTORE; REVERT` on a contract with
empty storage reverts (`success = false`), yet the contract's persistent
storage afterwards contains the SSTOREd binding `"0" ↦ 5` — the write
survives the failed execution because the VM mutates the contract's own
storage map in place and the `if (result.success)` guard re-assigns that
same object. -/
theorem contract_revert_persists_storage :
    ((⟨"c", [1, 5, 1, 0, 0x61, 0x81], "creator", [], 0⟩ : Contract).execute
        "caller" 0 [] 1000000).1.success = false
  ∧ ((⟨"c", [1, 5, 1, 0, 0x61, 0x81], "creator", [], 0⟩ : Contract).execute
        "caller" 0 [] 1000000).2.storage = [("0", 5)]
  ∧ ([("0", (5 : Int))] : List (String × Int)) ≠ [] := by
  refine ⟨by decide, by decide, by decide⟩

/-- C8 (amended): on a handshake from a peer whose URL equals ours the
socket is closed and the state is untouched; otherwise the connection is
stored under the peer URL only when no entry exists for that URL (an
existing entry is left untouched), `GET_CHAIN` is sent iff the peer's
reported chain length strictly exceeds ours, and `GET_PEERS` is always
the final message sent. -/
theorem handleHandshake_spec (st : P2PState) (ws : Nat) (url : String)
    (len : Nat) :
    (url = st.nodeUrl → handleHandshake st ws url len = (st, [.close ws]))
  ∧ (url ≠ st.nodeUrl →
      (handleHandshake st ws url len).1.peers
        = (if (lookupA st.peers url).isSome then st.peers
            else st.peers ++ [(url, ws)])
    ∧ (handleHandshake st ws url len).1.nodeUrl = st.nodeUrl
    ∧ (handleHandshake st ws url len).1.chainLength = st.chainLength
    ∧ (P2PAction.send ws "GET_CHAIN" ∈ (handleHandshake st ws url len).2
        ↔ len > st.chainLength)
    ∧ (handleHandshake st ws url len).2.getLast?
        = some (.send ws "GET_PEERS")) := by
  constructor
  · intro h
    simp [handleHandshake, h]
  · intro h
    by_cases hp : (lookupA st.peers url).isSome
      <;> by_cases hl : len > st.chainLength
      <;> simp [handleHandshake, h, hp, hl]

/-- Witness for C8 (amended): a fresh peer at a longer chain is stored
and receives `GET_CHAIN` then `GET_PEERS`; the self-URL case closes the
socket and leaves the state unchanged. -/
theorem handleHandshake_spec_witness :
    (handleHandshake ⟨[], [], "ws://me", 1⟩ 2 "ws://b" 5).1.peers = [("ws://b", 2)]
  ∧ (P2PAction.send 2 "GET_CHAIN" ∈ (handleHandshake ⟨[], [], "ws://me", 1⟩ 2 "ws://b" 5).2)
  ∧ (handleHandshake ⟨[], [], "ws://me", 1⟩ 2 "ws://b" 5).2.getLast?
      = some (.send 2 "GET_PEERS")
  ∧ handleHandshake ⟨[], [], "ws://me", 1⟩ 2 "ws://me" 5
      = (⟨[], [], "ws://me", 1⟩, [.close 2]) := by
  have h := handleHandshake_spec ⟨[], [], "ws://me", 1⟩ 2 "ws://b" 5
  have h2 := h.2 (by decide)
  refine ⟨by simpa using h2.1, h2.2.2.2.1.mpr (by decide), h2.2.2.2.2, ?_⟩
  exact (handleHandshake_spec ⟨[], [], "ws://me", 1⟩ 2 "ws://me" 5).1 rfl

/-- Counterexample for C8 as stated: a handshake arriving on connection
2 for a URL already registered with connection 1 does *not* record the
new connection — the peer table still maps the URL to connection 1. -/
theorem handleHandshake_existing_entry_not_replaced :
    ("ws://a" : String) ≠ "ws://me"
  ∧ (handleHandshake ⟨[("ws://a", 1)], ["ws://a"], "ws://me", 1⟩ 2 "ws://a" 5).1.peers
      = [("ws://a", 1)]
  ∧ lookupA (handleHandshake ⟨[("ws://a", 1)], ["ws://a"], "ws://me", 1⟩ 2
      "ws://a" 5).1.peers "ws://a" ≠ some 2 := by
  refine ⟨by decide, by decide, by decide⟩

/-- C1 (amended): the length guard lives in the gossip layer, not in
`replaceChain`. `handleChain` leaves the blockchain untouched whenever
the received chain is not strictly longer than ours, while
`replaceChain` itself accepts exactly the candidates passing
`validateChain` (no length comparison) and leaves the chain unchanged
whenever it returns `false`. -/
theorem handleChain_length_guard (f : CalcHash) (bc : Blockchain)
    (cand : List Block) (h : cand.length ≤ bc.chain.length) :
    handleChain f bc cand = bc
  ∧ ∀ c2 : List Block,
      (bc.replaceChain f c2).1 = bc.validateChain f c2
    ∧ ((bc.replaceChain f c2).1 = false → (bc.replaceChain f c2).2 = bc) := by
  constructor
  · simp [handleChain, Nat.not_lt.mpr h]
  · intro c2
    unfold Blockchain.replaceChain
    split <;> simp_all

/-- Witness for C1 (amended): with a two-block current chain, offering a
one-block chain through `handleChain` changes nothing, and
`replaceChain` on an invalid two-block candidate returns `false` leaving
the state unchanged. -/
theorem handleChain_length_guard_witness :
    handleChain (fun _ _ _ _ _ => "h")
        ⟨[⟨0, 0, [], "0", 0, "g"⟩, ⟨1, 0, [], "g", 0, "h"⟩], [], 4⟩
        [⟨0, 0, [], "0", 0, "x"⟩]
      = ⟨[⟨0, 0, [], "0", 0, "g"⟩, ⟨1, 0, [], "g", 0, "h"⟩], [], 4⟩
  ∧ (Blockchain.replaceChain (fun _ _ _ _ _ => "h")
        ⟨[⟨0, 0, [], "0", 0, "g"⟩, ⟨1, 0, [], "g", 0, "h"⟩], [], 4⟩
        [⟨0, 0, [], "0", 0, "x"⟩, ⟨1, 0, [], "x", 0, "y"⟩]).1 = false := by
  have h := handleChain_length_guard (fun _ _ _ _ _ => "h")
    ⟨[⟨0, 0, [], "0", 0, "g"⟩, ⟨1, 0, [], "g", 0, "h"⟩], [], 4⟩
    [⟨0, 0, [], "0", 0, "x"⟩] (by decide)
  refine ⟨h.1, ?_⟩
  rw [(h.2 [⟨0, 0, [], "0", 0, "x"⟩, ⟨1, 0, [], "x", 0, "y"⟩]).1]
  decide

/-- Counterexample for C1 as stated: a *valid* one-block candidate
offered to `replaceChain` while our chain has two blocks is accepted —
`replaceChain` returns `true` and installs the shorter chain, because
the source performs no length comparison (`validateChain` checks nothing
for a single-block chain). -/
theorem replaceChain_accepts_shorter_chain :
    ([⟨0, 0, [], "0", 0, "x"⟩] : List Block).length
      ≤ ([⟨0, 0, [], "0", 0, "g"⟩, ⟨1, 0, [], "g", 0, "h"⟩] : List Block).length
  ∧ (Blockchain.replaceChain (fun _ _ _ _ _ => "h")
        ⟨[⟨0, 0, [], "0", 0, "g"⟩, ⟨1, 0, [], "g", 0, "h"⟩], [], 4⟩
        [⟨0, 0, [], "0", 0, "x"⟩]).1 = true
  ∧ (Blockchain.replaceChain (fun _ _ _ _ _ => "h")
        ⟨[⟨0, 0, [], "0", 0, "g"⟩, ⟨1, 0, [], "g", 0, "h"⟩], [], 4⟩
        [⟨0, 0, [], "0", 0, "x"⟩]).2.chain
      = [⟨0, 0, [], "0", 0, "x"⟩] := by
  refine ⟨by decide, by decide, by decide⟩

/-- The `validateChain` loop checks exactly the hash, link and
proof-of-work conditions of every consecutive pair starting at the chain
head. -/
theorem validateChainLoop_iff (f : CalcHash) (d : Nat) (rest : List Block)
    (prev : Block) :
    validateChainLoop f d prev rest = true ↔
      ∀ i b p, (prev :: rest).get? (i + 1) = some b →
        (prev :: rest).get? i = some p →
        b.hash = b.calculateHash f ∧ b.previousHash = p.hash ∧
          meetsDifficulty d b.hash = true := by
  induction rest generalizing prev with
  | nil =>
    simp only [validateChainLoop, true_iff]
    intro i b p hb
    simp [List.get?] at hb
  | cons b rest ih =>
    unfold validateChainLoop
    by_cases h1 : b.hash = b.calculateHash f
    · by_cases h2 : b.previousHash = prev.hash
      · by_cases h3 : meetsDifficulty d b.hash = true
        · rw [if_neg (by simp [h1]), if_neg (by simp [h2]),
            if_neg (by simp [h3]), ih b]
          constructor
          · intro hall i bb pp hbb hpp
            match i with
            | 0 =>
              simp [List.get?] at hbb hpp
              subst hbb; subst hpp
              exact ⟨h1, h2, h3⟩
            | n + 1 =>
              exact hall n bb pp hbb hpp
          · intro hall i bb pp hbb hpp
            exact hall (i + 1) bb pp hbb hpp
        · rw [if_neg (by simp [h1]), if_neg (by simp [h2]), if_pos (by simp [h3])]
          constructor
          · intro hfalse; exact absurd hfalse (by simp)
          · intro hall
            exact absurd (hall 0 b prev (by simp [List.get?]) (by simp [List.get?])).2.2 h3
      · rw [if_neg (by simp [h1]), if_pos (by simp [h2])]
        constructor
        · intro hfalse; exact absurd hfalse (by simp)
        · intro hall
          exact absurd (hall 0 b prev (by simp [List.get?]) (by simp [List.get?])).2.1 h2
    · rw [if_pos (by simp [h1])]
      constructor
      · intro hfalse; exact absurd hfalse (by simp)
      · intro hall
        exact absurd (hall 0 b prev (by simp [List.get?]) (by simp [List.get?])).1 h1

/-- C5: `validateChain` returns `false` on the empty chain and otherwise
returns `true` iff every block at index `i ≥ 1` has a stored hash equal
to its recomputed hash, a `previousHash` equal to block `i-1`'s hash,
and a hash meeting the difficulty target. The characterization is
complete and mentions no transaction-signature condition: signature
validity plays no role in `validateChain`. -/
theorem validateChain_spec (f : CalcHash) (bc : Blockchain) (c : List Block) :
    bc.validateChain f c = true ↔
      (c ≠ [] ∧ ∀ i b p, c.get? (i + 1) = some b → c.get? i = some p →
        b.hash = b.calculateHash f ∧ b.previousHash = p.hash ∧
          meetsDifficulty bc.difficulty b.hash = true) := by
  cases c with
  | nil => simp [Blockchain.validateChain]
  | cons b0 rest =>
    unfold Blockchain.validateChain
    rw [validateChainLoop_iff]
    simp

/-- Witness for C5: a two-block chain whose second block carries the
(constant) recomputed hash `"0000x"`, links to the genesis hash and
meets difficulty 4 validates to `true` — even though its only
transaction is unsigned and hence invalid — and the empty chain
validates to `false`. -/
theorem validateChain_spec_witness :
    Blockchain.validateChain (fun _ _ _ _ _ => "0000x") ⟨[], [], 4⟩
        [⟨0, 0, [], "0", 0, "g"⟩,
         ⟨1, 0, [⟨some "s", "r", 5, 0, none⟩], "g", 0, "0000x"⟩] = true
  ∧ Transaction.isValid (fun _ _ _ => true) ⟨some "s", "r", 5, 0, none⟩ = false
  ∧ Blockchain.validateChain (fun _ _ _ _ _ => "0000x") ⟨[], [], 4⟩ [] = false := by
  refine ⟨?_, by decide, ?_⟩
  · refine (validateChain_spec (fun _ _ _ _ _ => "0000x") ⟨[], [], 4⟩ _).mpr
      ⟨by simp, ?_⟩
    intro i b p hb hp
    match i with
    | 0 =>
      simp [List.get?] at hb hp
      subst hb; subst hp
      refine ⟨rfl, rfl, by decide⟩
    | n + 1 =>
      simp [List.get?] at hb
  · rw [← Bool.not_eq_true]
    intro hcontra
    exact absurd ((validateChain_spec _ _ _).mp hcontra).1 (by simp)

/-- C6: for a transaction passing the sender/receiver/`isValid` checks,
`addTransaction` fails with `InsufficientBalance` exactly when the
sender is present and its chain-derived balance is strictly below the
amount (so an amount exactly equal to the balance succeeds, and a
sender-absent mining reward bypasses the check); the failure leaves the
state untouched and a success appends the transaction to the pending
pool. -/
theorem addTransaction_insufficient_spec (verify : Verify) (bc : Blockchain)
    (tx : Transaction) (hs : tx.senderAddress ≠ some "")
    (hr : tx.receiverAddress ≠ "") (hv : tx.isValid verify = true) :
    ((bc.addTransaction verify tx).1 = .error .insufficientBalance
      ↔ ∃ s, tx.senderAddress = some s ∧ bc.getBalance s < tx.amount)
  ∧ ((bc.addTransaction verify tx).1 = .error .insufficientBalance →
      (bc.addTransaction verify tx).2 = bc)
  ∧ ((¬ ∃ s, tx.senderAddress = some s ∧ bc.getBalance s < tx.amount) →
      bc.addTransaction verify tx =
        (.ok (), { bc with pendingTransactions := bc.pendingTransactions ++ [tx] })) := by
  unfold Blockchain.addTransaction
  rw [if_neg hs, if_neg hr, if_neg (by simp [hv])]
  cases hsa : tx.senderAddress with
  | none => simp
  | some s =>
    by_cases hb : bc.getBalance s < tx.amount <;> simp [hb]

/-- Witness for C6: with a chain crediting `"alice"` 50 coins, a signed
transfer of 60 fails with `InsufficientBalance` leaving the state
unchanged, while a transfer of exactly 50 succeeds and is appended to
the pending pool. -/
theorem addTransaction_insufficient_spec_witness :
    (Blockchain.addTransaction (fun _ _ _ => true)
        ⟨[⟨0, 0, [⟨none, "alice", 50, 0, none⟩], "0", 0, "g"⟩], [], 4⟩
        ⟨some "alice", "bob", 60, 1, some "sig"⟩).1
      = .error .insufficientBalance
  ∧ (Blockchain.addTransaction (fun _ _ _ => true)
        ⟨[⟨0, 0, [⟨none, "alice", 50, 0, none⟩], "0", 0, "g"⟩], [], 4⟩
        ⟨some "alice", "bob", 60, 1, some "sig"⟩).2
      = ⟨[⟨0, 0, [⟨none, "alice", 50, 0, none⟩], "0", 0, "g"⟩], [], 4⟩
  ∧ Blockchain.addTransaction (fun _ _ _ => true)
        ⟨[⟨0, 0, [⟨none, "alice", 50, 0, none⟩], "0", 0, "g"⟩], [], 4⟩
        ⟨some "alice", "bob", 50, 1, some "sig"⟩
      = (.ok (), ⟨[⟨0, 0, [⟨none, "alice", 50, 0, none⟩], "0", 0, "g"⟩],
          [⟨some "alice", "bob", 50, 1, some "sig"⟩], 4⟩) := by
  have h60 := addTransaction_insufficient_spec (fun _ _ _ => true)
    ⟨[⟨0, 0, [⟨none, "alice", 50, 0, none⟩], "0", 0, "g"⟩], [], 4⟩
    ⟨some "alice", "bob", 60, 1, some "sig"⟩ (by decide) (by decide) (by decide)
  have h50 := addTransaction_insufficient_spec (fun _ _ _ => true)
    ⟨[⟨0, 0, [⟨none, "alice", 50, 0, none⟩], "0", 0, "g"⟩], [], 4⟩
    ⟨some "alice", "bob", 50, 1, some "sig"⟩ (by decide) (by decide) (by decide)
  have he : (Blockchain.addTransaction (fun _ _ _ => true)
      ⟨[⟨0, 0, [⟨none, "alice", 50, 0, none⟩], "0", 0, "g"⟩], [], 4⟩
      ⟨some "alice", "bob", 60, 1, some "sig"⟩).1 = .error .insufficientBalance :=
    h60.1.mpr ⟨"alice", rfl, by decide⟩
  refine ⟨he, h60.2.1 he, h50.2.2 ?_⟩
  rintro ⟨s, hsa, hlt⟩
  have hseq : s = "alice" := by
    simpa using hsa.symm
  subst hseq
  revert hlt
  decide

/-- C9: the balance check in `addTransaction` consults only the chain,
never the pending pool: two successive submissions that each spend the
sender's entire chain-derived balance both succeed, and both enter the
pending pool. -/
theorem addTransaction_ignores_pending (verify : Verify) (bc : Blockchain)
    (tx1 tx2 : Transaction) (s : String)
    (hs1 : tx1.senderAddress = some s) (hs2 : tx2.senderAddress = some s)
    (hne : s ≠ "") (hr1 : tx1.receiverAddress ≠ "") (hr2 : tx2.receiverAddress ≠ "")
    (hv1 : tx1.isValid verify = true) (hv2 : tx2.isValid verify = true)
    (ha1 : tx1.amount = bc.getBalance s) (ha2 : tx2.amount = bc.getBalance s) :
    (bc.addTransaction verify tx1).1 = .ok ()
  ∧ (((bc.addTransaction verify tx1).2).addTransaction verify tx2).1 = .ok ()
  ∧ (((bc.addTransaction verify tx1).2).addTransaction verify tx2).2.pendingTransactions
      = bc.pendingTransactions ++ [tx1, tx2] := by
  have hstep1 : bc.addTransaction verify tx1 =
      (.ok (), { bc with pendingTransactions := bc.pendingTransactions ++ [tx1] }) := by
    unfold Blockchain.addTransaction
    rw [if_neg (by rw [hs1]; simp [hne]), if_neg hr1, if_neg (by simp [hv1])]
    rw [hs1]
    simp [ha1]
  have hbal2 : Blockchain.getBalance
      { bc with pendingTransactions := bc.pendingTransactions ++ [tx1] } s
        = bc.getBalance s := rfl
  have hstep2 : Blockchain.addTransaction verify
      { bc with pendingTransactions := bc.pendingTransactions ++ [tx1] } tx2 =
      (.ok (), { bc with pendingTransactions :=
        (bc.pendingTransactions ++ [tx1]) ++ [tx2] }) := by
    unfold Blockchain.addTransaction
    rw [if_neg (by rw [hs2]; simp [hne]), if_neg hr2, if_neg (by simp [hv2])]
    rw [hs2]
    simp [hbal2, ha2]
  rw [hstep1]
  simp only [hstep2]
  simp

/-- Witness for C9: `"alice"` holds 50 on-chain; two signed transfers of
50 each are both accepted and both sit in the pending pool. -/
theorem addTransaction_ignores_pending_witness :
    (Blockchain.addTransaction (fun _ _ _ => true)
        ⟨[⟨0, 0, [⟨none, "alice", 50, 0, none⟩], "0", 0, "g"⟩], [], 4⟩
        ⟨some "alice", "bob", 50, 1, some "sig1"⟩).1 = .ok ()
  ∧ ((Blockchain.addTransaction (fun _ _ _ => true)
        ⟨[⟨0, 0, [⟨none, "alice", 50, 0, none⟩], "0", 0, "g"⟩], [], 4⟩
        ⟨some "alice", "bob", 50, 1, some "sig1"⟩).2.addTransaction
          (fun _ _ _ => true) ⟨some "alice", "carol", 50, 2, some "sig2"⟩).1 = .ok ()
  ∧ ((Blockchain.addTransaction (fun _ _ _ => true)
        ⟨[⟨0, 0, [⟨none, "alice", 50, 0, none⟩], "0", 0, "g"⟩], [], 4⟩
        ⟨some "alice", "bob", 50, 1, some "sig1"⟩).2.addTransaction
          (fun _ _ _ => true) ⟨some "alice", "carol", 50, 2, some "sig2"⟩).2.pendingTransactions
      = [⟨some "alice", "bob", 50, 1, some "sig1"⟩,
         ⟨some "alice", "carol", 50, 2, some "sig2"⟩] := by
  have h := addTransaction_ignores_pending (fun _ _ _ => true)
    ⟨[⟨0, 0, [⟨none, "alice", 50, 0, none⟩], "0", 0, "g"⟩], [], 4⟩
    ⟨some "alice", "bob", 50, 1, some "sig1"⟩
    ⟨some "alice", "carol", 50, 2, some "sig2"⟩ "alice"
    rfl rfl (by decide) (by decide) (by decide) (by decide) (by decide)
    (by decide) (by decide)
  exact ⟨h.1, h.2.1, by rw [h.2.2]; rfl⟩

/-- C3: with a non-empty chain whose tip is `tip`, `addBlock` always
returns a verdict, and the block is appended exactly when its
`previousHash` matches the tip's hash, its index is the tip's index plus
one, its stored hash equals the recomputed hash, and its hash meets the
difficulty target; on acceptance the chain gains exactly the new block
and a pending transaction survives iff no transaction of the block
shares its `(sender, receiver, amount, timestamp)` fingerprint; on
rejection the state is untouched. -/
theorem addBlock_spec (f : CalcHash) (bc : Blockchain) (b tip : Block)
    (htip : bc.getLatestBlock? = some tip) :
    (bc.addBlock f b).isSome = true
  ∧ ∀ r bc2, bc.addBlock f b = some (r, bc2) →
      ((r = true ↔ (b.previousHash = tip.hash ∧ b.index = tip.index + 1 ∧
          b.hash = b.calculateHash f ∧ meetsDifficulty bc.difficulty b.hash = true))
      ∧ (r = true → bc2.chain = bc.chain ++ [b] ∧
          ∀ p, p ∈ bc2.pendingTransactions ↔
            (p ∈ bc.pendingTransactions ∧
              ¬ ∃ m ∈ b.transactions, fingerprintEq m p = true))
      ∧ (r = false → bc2 = bc)) := by
  have hmain : bc.addBlock f b =
      (if b.previousHash = tip.hash ∧ b.index = tip.index + 1 ∧
          b.hash = b.calculateHash f ∧ meetsDifficulty bc.difficulty b.hash = true
        then some (true,
          { bc with
            chain := bc.chain ++ [b]
            pendingTransactions :=
              removeMinedTransactions bc.pendingTransactions b.transactions })
        else some (false, bc)) := by
    simp only [Blockchain.addBlock, htip]
    by_cases h1 : b.previousHash = tip.hash
      <;> by_cases h2 : b.index = tip.index + 1
      <;> by_cases h3 : b.hash = b.calculateHash f
      <;> simp [h1, h2, h3]
    cases h4 : meetsDifficulty bc.difficulty (b.calculateHash f) <;> simp [h4]
  rw [hmain]
  by_cases hall : b.previousHash = tip.hash ∧ b.index = tip.index + 1 ∧
      b.hash = b.calculateHash f ∧ meetsDifficulty bc.difficulty b.hash = true
  · rw [if_pos hall]
    refine ⟨rfl, ?_⟩
    intro r bc2 heq
    injection heq with heq
    injection heq with hr hbc2
    subst hr
    subst hbc2
    obtain ⟨a1, a2, a3, a4⟩ := hall
    refine ⟨by simp [a1, a2, a3, a4, a3 ▸ a4], ?_, by simp⟩
    intro _
    refine ⟨rfl, ?_⟩
    intro p
    simp [removeMinedTransactions, List.mem_filter, List.any_eq_true]
  · rw [if_neg hall]
    refine ⟨rfl, ?_⟩
    intro r bc2 heq
    injection heq with heq
    injection heq with hr hbc2
    subst hr
    subst hbc2
    exact ⟨by simp [hall], by simp, fun _ => rfl⟩

/-- Witness for C3: a block correctly linked to the genesis tip, with a
matching constant hash meeting difficulty 4, is accepted, and the
pending transaction sharing the fingerprint of the block's transaction
is removed from the pool. -/
theorem addBlock_spec_witness :
    Blockchain.addBlock (fun _ _ _ _ _ => "0000")
        ⟨[⟨0, 0, [], "0", 0, "g"⟩], [⟨some "a", "b", 5, 7, some "sigP"⟩], 4⟩
        ⟨1, 9, [⟨some "a", "b", 5, 7, some "sigM"⟩], "g", 0, "0000"⟩
      = some (true, ⟨[⟨0, 0, [], "0", 0, "g"⟩,
          ⟨1, 9, [⟨some "a", "b", 5, 7, some "sigM"⟩], "g", 0, "0000"⟩], [], 4⟩)
  ∧ (⟨some "a", "b", 5, 7, some "sigP"⟩ : Transaction) ∉
      (⟨[⟨0, 0, [], "0", 0, "g"⟩, ⟨1, 9, [⟨some "a", "b", 5, 7, some "sigM"⟩],
        "g", 0, "0000"⟩], [], 4⟩ : Blockchain).pendingTransactions := by
  have h := addBlock_spec (fun _ _ _ _ _ => "0000")
    ⟨[⟨0, 0, [], "0", 0, "g"⟩], [⟨some "a", "b", 5, 7, some "sigP"⟩], 4⟩
    ⟨1, 9, [⟨some "a", "b", 5, 7, some "sigM"⟩], "g", 0, "0000"⟩
    ⟨0, 0, [], "0", 0, "g"⟩ rfl
  have hmem := ((h.2 true ⟨[⟨0, 0, [], "0", 0, "g"⟩,
      ⟨1, 9, [⟨some "a", "b", 5, 7, some "sigM"⟩], "g", 0, "0000"⟩], [], 4⟩
      (by decide)).2.1 rfl).2 ⟨some "a", "b", 5, 7, some "sigP"⟩
  refine ⟨by decide, ?_⟩
  intro hin
  exact (hmem.mp hin).2 ⟨⟨some "a", "b", 5, 7, some "sigM"⟩, by decide, by decide⟩

/-- Helper for C7: executing any bytecode that begins `PUSH1 1; ADD`
from a fresh state with the default gas limit traps at the first `ADD`:
the single stack element is consumed by the first pop, the second pop
underflows, and the loop halts with `'Stack underflow'` after charging
3 gas for the `PUSH1` and 3 for the `ADD`. The jump-destination set and
the rest of the program are irrelevant. -/
theorem runLoop_push1_add_underflow (jd rest : List Nat) (fuel : Nat) :
    runLoop jd (1 :: 1 :: 16 :: rest) (fuel + 2) (initVM "0x0" 0 [] 1000000 [])
      = ({ stack := [], memory := [], storage := [], pc := 2, gasUsed := 6,
           gasLimit := 1000000, caller := "0x0", value := 0, callData := [],
           returnData := [], logs := [], stopped := true, reverted := true },
         some "Stack underflow") := by
  have hb0 : byteAtD (1 :: 1 :: 16 :: rest) 0 = 1 := rfl
  have hb1 : byteAtD (1 :: 1 :: 16 :: rest) 1 = 1 := rfl
  have hb2 : byteAtD (1 :: 1 :: 16 :: rest) 2 = 16 := rfl
  rw [show fuel + 2 = (fuel + 1) + 1 from rfl, runLoop]
  rw [if_pos (⟨by simp [initVM]; omega, rfl⟩ :
    (initVM "0x0" 0 [] 1000000 []).pc < ((1 :: 1 :: 16 :: rest).length : Int) ∧
      (initVM "0x0" 0 [] 1000000 []).stopped = false)]
  simp only [initVM, hb0, hb1, hb2]
  norm_num [effCost, gasCostRaw, executeOpcode]
  rw [show fuel + 1 = fuel + 0 + 1 from rfl, runLoop]
  split
  · norm_num [hb1, hb2, effCost, gasCostRaw, executeOpcode, binaryOp]
  · next hneg =>
      exfalso
      apply hneg
      refine ⟨by simp; omega, rfl⟩

/-- The whole C7 program: 2050 repetitions of `PUSH1 1; ADD`. -/
def prog2050 : List Nat := (List.replicate 2050 [1, 1, 0x10]).flatten

/-- The C7 program starts `PUSH1 1; ADD`. -/
theorem prog2050_head :
    prog2050 = 1 :: 1 :: 16 :: (List.replicate 2049 ([1, 1, 16] : List Nat)).flatten := by
  show (List.replicate (2049 + 1) ([1, 1, 16] : List Nat)).flatten = _
  rw [List.replicate_succ, List.flatten_cons]
  rfl

/-- The execution result of the C7 program under the default context:
a `Stack underflow` trap after 6 gas. -/
theorem prog2050_result :
    VM.execute "0x0" 0 [] 1000000 [] prog2050
      = { success := false, gasUsed := 6, returnData := [], storage := [],
          logs := [], stack := [], error := some "Stack underflow" } := by
  unfold VM.execute
  rw [prog2050_head]
  dsimp only
  rw [runLoop_push1_add_underflow]
  rfl

/-- C7 (amended): executing the 2050-fold `PUSH1 1; ADD` program under
the default gas limit of 1,000,000 halts at the very first `ADD` with a
`Stack underflow` trap (`success = false`) after consuming only 6 gas —
the pattern pushes one operand per addition, so the second pop of the
first `ADD` underflows long before gas (the complete program would cost
only 12,300 gas) becomes relevant. -/
theorem vm_2050_push_add_stack_underflow :
    (VM.execute "0x0" 0 [] 1000000 [] prog2050).success = false
  ∧ (VM.execute "0x0" 0 [] 1000000 [] prog2050).error = some "Stack underflow"
  ∧ (VM.execute "0x0" 0 [] 1000000 [] prog2050).gasUsed = 6 := by
  rw [prog2050_result]
  exact ⟨rfl, rfl, rfl⟩

/-- Counterexample for C7 as stated: the 2050-fold `PUSH1 1; ADD`
program does *not* halt with `Out of gas` — its error is
`Stack underflow`, and the gas consumed when it halts is 6, far below
the 1,000,000 limit. -/
theorem vm_2050_push_add_not_out_of_gas :
    (VM.execute "0x0" 0 [] 1000000 [] prog2050).error ≠ some "Out of gas"
  ∧ (VM.execute "0x0" 0 [] 1000000 [] prog2050).gasUsed < 1000000 := by
  rw [prog2050_result]
  exact ⟨by decide, by decide⟩

end Neko
